import Mathlib

/-!
Shallow embedding of the row-decoding and column-resolution layer of the
rust-postgres fork: src/tokio-postgres/src/row.rs and
src/tokio-postgres/src/to_statement.rs.  Types that live outside those two
files (the protocol DataRow body, the Error type, the per-type decode
capability, Statement, ProtocolEncodingFormat, the client) are modelled from
the specification and carry doc comments saying so.
-/

namespace Pg

/-- Raw byte strings: the tuple buffer and field slices. -/
abbrev Bytes := List Nat

instance exceptDecEq [DecidableEq ε] [DecidableEq α] : DecidableEq (Except ε α) := fun a b =>
  match a, b with
  | .ok x, .ok y =>
    if h : x = y then isTrue (by rw [h]) else isFalse (by intro hh; injection hh; contradiction)
  | .error x, .error y =>
    if h : x = y then isTrue (by rw [h]) else isFalse (by intro hh; injection hh; contradiction)
  | .ok _, .error _ => isFalse (by intro hh; injection hh)
  | .error _, .ok _ => isFalse (by intro hh; injection hh)

/-- Modelled from the spec: postgres_types::ProtocolEncodingFormat, the wire
encoding negotiated for a statement's results (binary or text); the type is
outside src/. -/
inductive ProtocolEncodingFormat
  | Binary
  | Text
deriving DecidableEq

/-- Modelled from the spec: the Debug rendering of a format, used when the
encoding-mismatch message interpolates the two formats. -/
def ProtocolEncodingFormat.debugRepr : ProtocolEncodingFormat → String
  | .Binary => "Binary"
  | .Text => "Text"

/-- Modelled from the spec: a column's declared wire-level type identifier
(crate::types::Type is outside src/). -/
abbrev PgType := String

/-- Modelled from the spec: the TEXT type used by the SimpleQueryRow textual
decode path. -/
def typeTEXT : PgType := "text"

/-- Modelled from the spec: column metadata, a name plus declared type
(crate::statement::Column is outside src/). -/
structure Column where
  name : String
  type_ : PgType
deriving DecidableEq

/-- Modelled from the spec: a prepared statement handle, carrying its ordered
column list and its negotiated result encoding (crate::Statement is outside
src/). -/
structure Statement where
  columns : List Column
  result_format : ProtocolEncodingFormat
deriving DecidableEq

/-- Modelled from the spec: the simple-query column metadata, carrying only a
name (crate::simple_query::SimpleColumn is outside src/). -/
structure SimpleColumn where
  name : String
deriving DecidableEq

/-- Modelled from the spec: the raw DataRow message, a field count and the
body bytes holding one length-prefixed or NULL field per column
(postgres_protocol::message::backend::DataRowBody is outside src/). -/
structure DataRowBody where
  fieldCount : Nat
  buffer : Bytes
deriving DecidableEq

/-- Big-endian 32-bit value from four bytes, as read for a field length. -/
def beU32 (b0 b1 b2 b3 : Nat) : Nat :=
  ((b0 * 256 + b1) * 256 + b2) * 256 + b3

/-- Modelled from the spec: the DataRowBody ranges parser.  Each field is a
4-byte big-endian signed length; a negative length denotes SQL NULL,
otherwise that many bytes follow and the field's byte range is recorded.
Truncated or inconsistent length prefixes fail cleanly. -/
def parseFieldsFrom : Nat → Nat → Bytes → Except String (List (Option (Nat × Nat)))
  | 0, _, rest => if rest.isEmpty then .ok [] else .error "invalid message length"
  | n + 1, off, b0 :: b1 :: b2 :: b3 :: rest =>
    if 2 ^ 31 ≤ beU32 b0 b1 b2 b3 then
      match parseFieldsFrom n (off + 4) rest with
      | .error e => .error e
      | .ok rs => .ok (none :: rs)
    else if rest.length < beU32 b0 b1 b2 b3 then
      .error "unexpected EOF"
    else
      match parseFieldsFrom n (off + 4 + beU32 b0 b1 b2 b3) (rest.drop (beU32 b0 b1 b2 b3)) with
      | .error e => .error e
      | .ok rs => .ok (some (off + 4, off + 4 + beU32 b0 b1 b2 b3) :: rs)
  | _ + 1, _, _ => .error "unexpected EOF"

/-- Modelled from the spec: body.ranges().collect() — parse the tuple into
one optional byte range per field, failing on malformed input. -/
def DataRowBody.ranges (b : DataRowBody) : Except String (List (Option (Nat × Nat))) :=
  parseFieldsFrom b.fieldCount 0 b.buffer

/-- Modelled from the spec: the cause payload of an extraction error — either
the WrongType value carrying the requested Rust type and the column's declared
type, or an opaque decode failure (crate::types::WrongType is outside src/). -/
inductive SqlErrorCause
  | wrongType (requested : String) (declared : PgType)
  | other (msg : String)
deriving DecidableEq

/-- Modelled from the spec: crate::Error, restricted to the constructor
functions the two source files call — Error::parse, Error::column and
Error::from_sql (the Error type is outside src/). -/
inductive Error
  | parse (msg : String)
  | column (s : String)
  | fromSql (cause : SqlErrorCause) (idx : Nat)
deriving DecidableEq

/-- Modelled from the spec: a diagnostic rendering of an Error, used only to
build the panic message of the assert-style get variants. -/
def Error.display : Error → String
  | .parse m => "error parsing response from server: " ++ m
  | .column s => "invalid column " ++ s
  | .fromSql c i =>
    match c with
    | .wrongType req decl =>
      "error deserializing column " ++ Nat.repr i ++ ": cannot convert between the Rust type "
        ++ req ++ " and the Postgres type " ++ decl
    | .other m => "error deserializing column " ++ Nat.repr i ++ ": " ++ m

/-- The message built by Row::fail_non_binary_format. -/
def formatMsg : String := "format must be binary to support parameter extraction"

/-- The error returned by Row::fail_non_binary_format: the format gate's
distinguished failure (spec section 7 calls its kind Format). -/
def formatError : Error := .column formatMsg

/-- ASCII-only lowercasing of one character, as u8::to_ascii_lowercase. -/
def asciiLowerChar (c : Char) : Char :=
  if 65 ≤ c.toNat ∧ c.toNat ≤ 90 then Char.ofNat (c.toNat + 32) else c

/-- str::eq_ignore_ascii_case — equal length and pairwise equal after ASCII
lowercasing. -/
def eqIgnoreAsciiCase (a b : String) : Bool :=
  a.data.map asciiLowerChar == b.data.map asciiLowerChar

/-- Iterator::position — index of the first element satisfying the predicate. -/
def position (p : α → Bool) : List α → Option Nat
  | [] => none
  | a :: l => if p a then some 0 else (position p l).map (· + 1)

/-- The closed index kind of RowIndex: a zero-based position (the usize
implementation) or a column name (the str implementation). -/
inductive RowIndex
  | pos (n : Nat)
  | name (s : String)
deriving DecidableEq

/-- The Display rendering of an index, as interpolated into Error::column. -/
def RowIndex.display : RowIndex → String
  | .pos n => Nat.repr n
  | .name s => s

/-- RowIndex::__idx for usize: valid iff the position is below the column
count. -/
def usizeIdx (n : Nat) (names : List String) : Option Nat :=
  if names.length ≤ n then none else some n

/-- RowIndex::__idx for str: an exact byte-for-byte pass in column order, then
an ASCII case-insensitive pass in column order. -/
def strIdx (s : String) (names : List String) : Option Nat :=
  match position (fun d => d == s) names with
  | some i => some i
  | none => position (fun d => eqIgnoreAsciiCase d s) names

/-- Dispatch of RowIndex::__idx over the closed index kinds, applied to the
column names (AsName extracts each column's name). -/
def RowIndex.idx : RowIndex → List String → Option Nat
  | .pos n, names => usizeIdx n names
  | .name s, names => strIdx s names

/-- Modelled from the spec: the per-type decode capability of the external
FromSql trait — a Rust type name (for WrongType), accepts, and the nullable
decode entry point. -/
structure FromSqlCap (T : Type) where
  typeName : String
  accepts : PgType → Bool
  fromSqlNullable : PgType → Option Bytes → Except String T

/-- buffer[range] — the byte slice of the owned buffer for one field. -/
def slice (buf : Bytes) (r : Nat × Nat) : Bytes :=
  (buf.drop r.1).take (r.2 - r.1)

/-- A row of data returned from the database by a query. -/
structure Row where
  statement : Statement
  body : DataRowBody
  ranges : List (Option (Nat × Nat))
  extract_allowed : Bool
deriving DecidableEq

/-- Row::new — parse the tuple into byte ranges exactly once; a malformed
tuple fails with a Parse error and yields no Row. -/
def Row.new (statement : Statement) (body : DataRowBody) (extract_allowed : Bool) :
    Except Error Row :=
  match body.ranges with
  | .error e => .error (.parse e)
  | .ok ranges => .ok ⟨statement, body, ranges, extract_allowed⟩

/-- Row::columns — the statement's column metadata. -/
def Row.columns (row : Row) : List Column := row.statement.columns

/-- Row::len — the number of values in the row. -/
def Row.len (row : Row) : Nat := row.columns.length

/-- Row::is_empty. -/
def Row.is_empty (row : Row) : Bool := row.len == 0

/-- Row::col_buffer — the raw byte slice for the column at a resolved index,
or none for SQL NULL. -/
def Row.col_buffer (row : Row) (idx : Nat) : Option Bytes :=
  (row.ranges.getD idx none).map (slice row.body.buffer)

/-- columns[idx] — the column at a resolved index (resolution guarantees the
index is in bounds). -/
def colAt (cols : List Column) (i : Nat) : Column :=
  cols.getD i ⟨"", ""⟩

/-- Row::get_inner — format gate, index resolution, type compatibility check,
then decode, in that order. -/
def Row.get_inner (row : Row) (cap : FromSqlCap T) (idx : RowIndex) : Except Error T :=
  if !row.extract_allowed then
    .error formatError
  else
    match RowIndex.idx idx (row.columns.map Column.name) with
    | none => .error (.column (RowIndex.display idx))
    | some i =>
      if !cap.accepts (colAt row.columns i).type_ then
        .error (.fromSql (.wrongType cap.typeName (colAt row.columns i).type_) i)
      else
        match cap.fromSqlNullable (colAt row.columns i).type_ (row.col_buffer i) with
        | .error e => .error (.fromSql (.other e) i)
        | .ok v => .ok v

/-- Row::try_get — like get, returning the error instead of panicking. -/
def Row.try_get (row : Row) (cap : FromSqlCap T) (idx : RowIndex) : Except Error T :=
  row.get_inner cap idx

/-- Row::get — a panic is modelled as an Except.error carrying the panic
message built from the index and the underlying error. -/
def Row.get (row : Row) (cap : FromSqlCap T) (idx : RowIndex) : Except String T :=
  match row.get_inner cap idx with
  | .ok v => .ok v
  | .error e => .error ("error retrieving column " ++ RowIndex.display idx ++ ": " ++ e.display)

/-- A row of data returned from the database by a simple query. -/
structure SimpleQueryRow where
  columns : List SimpleColumn
  body : DataRowBody
  ranges : List (Option (Nat × Nat))
deriving DecidableEq

/-- SimpleQueryRow::new — same construction discipline as Row::new. -/
def SimpleQueryRow.new (columns : List SimpleColumn) (body : DataRowBody) :
    Except Error SimpleQueryRow :=
  match body.ranges with
  | .error e => .error (.parse e)
  | .ok ranges => .ok ⟨columns, body, ranges⟩

/-- SimpleQueryRow::len. -/
def SimpleQueryRow.len (row : SimpleQueryRow) : Nat := row.columns.length

/-- SimpleQueryRow::is_empty. -/
def SimpleQueryRow.is_empty (row : SimpleQueryRow) : Bool := row.len == 0

/-- The simple-query field slice: ranges[idx].clone().map(slice). -/
def SimpleQueryRow.col_buffer (row : SimpleQueryRow) (idx : Nat) : Option Bytes :=
  (row.ranges.getD idx none).map (slice row.body.buffer)

/-- The textual decode capability used by SimpleQueryRow: the nullable FromSql
entry point at type Option of text. -/
abbrev TextCap := PgType → Option Bytes → Except String (Option String)

/-- SimpleQueryRow::get_inner — resolve the index, then decode through the
textual path with declared type TEXT; no format gate, no accepts check. -/
def SimpleQueryRow.get_inner (row : SimpleQueryRow) (cap : TextCap) (idx : RowIndex) :
    Except Error (Option String) :=
  match RowIndex.idx idx (row.columns.map SimpleColumn.name) with
  | none => .error (.column (RowIndex.display idx))
  | some i =>
    match cap typeTEXT (row.col_buffer i) with
    | .error e => .error (.fromSql (.other e) i)
    | .ok v => .ok v

/-- SimpleQueryRow::try_get. -/
def SimpleQueryRow.try_get (row : SimpleQueryRow) (cap : TextCap) (idx : RowIndex) :
    Except Error (Option String) :=
  row.get_inner cap idx

/-- SimpleQueryRow::get — panic modelled as Except.error with the panic
message. -/
def SimpleQueryRow.get (row : SimpleQueryRow) (cap : TextCap) (idx : RowIndex) :
    Except String (Option String) :=
  match row.get_inner cap idx with
  | .ok v => .ok v
  | .error e => .error ("error retrieving column " ++ RowIndex.display idx ++ ": " ++ e.display)

/-- Modelled from the spec: the statement-preparation collaborator —
Client::prepare_with_result_format, which prepares query text with the
requested result format (the Client type is outside src/). -/
def Client := String → ProtocolEncodingFormat → Except Error Statement

/-- ToStatementType — a tagged choice between an already-prepared statement
plus the requested result format, and raw query text plus the desired format. -/
inductive ToStatementType
  | Statement (fmt : ProtocolEncodingFormat) (s : Pg.Statement)
  | Query (fmt : ProtocolEncodingFormat) (q : String)

/-- The encoding-mismatch message interpolating both formats, as built by
into_statement. -/
def encodingMismatchMsg (requested actual : ProtocolEncodingFormat) : String :=
  "the requested encoding '" ++ requested.debugRepr
    ++ "' does not mat the statements encoding '" ++ actual.debugRepr ++ "'"

/-- ToStatementType::into_statement — a reused statement is format-checked and
cloned; fresh query text is delegated to the preparation collaborator. -/
def ToStatementType.into_statement (t : ToStatementType) (client : Client) :
    Except Error Pg.Statement :=
  match t with
  | .Statement result_format s =>
    if result_format ≠ s.result_format then
      .error (.column (encodingMismatchMsg result_format s.result_format))
    else
      .ok s
  | .Query result_format q => client q result_format

/-! Concrete fixtures used by witnesses and counterexamples. -/

/-- A two-column statement: id int4, name text, binary results. -/
def wStmt : Statement := ⟨[⟨"id", "int4"⟩, ⟨"name", "text"⟩], .Binary⟩

/-- A DataRow body holding the fields 7 and "ada". -/
def wBody : DataRowBody := ⟨2, [0, 0, 0, 1, 7, 0, 0, 0, 3, 97, 100, 97]⟩

/-- The row Row::new builds from wStmt and wBody with binary extraction. -/
def wRow : Row := ⟨wStmt, wBody, [some (4, 5), some (9, 12)], true⟩

/-- The same row built with extract_allowed set to false. -/
def wRowNB : Row := ⟨wStmt, wBody, [some (4, 5), some (9, 12)], false⟩

/-- A decode capability accepting every type and returning the raw bytes. -/
def rawCap : FromSqlCap (Option Bytes) := ⟨"rawbytes", fun _ => true, fun _ ob => .ok ob⟩

/-- A statement whose two columns carry the same name. -/
def dupStmt : Statement := ⟨[⟨"a", "int4"⟩, ⟨"a", "int4"⟩], .Binary⟩

/-- A DataRow body holding the two distinct fields 7 and 8. -/
def dupBody : DataRowBody := ⟨2, [0, 0, 0, 1, 7, 0, 0, 0, 1, 8]⟩

/-- The row Row::new builds from dupStmt and dupBody. -/
def dupRow : Row := ⟨dupStmt, dupBody, [some (4, 5), some (9, 10)], true⟩

/-- A simple-query row over wBody with columns id and name. -/
def wSimple : SimpleQueryRow := ⟨[⟨"id"⟩, ⟨"name"⟩], wBody, [some (4, 5), some (9, 12)]⟩

/-- A textual decode capability mapping any present field to a fixed string. -/
def wTextCap : TextCap := fun _ ob => .ok (ob.map (fun _ => "decoded"))

/-- A preparation collaborator that always fails. -/
def clientA : Client := fun _ _ => .error (.parse "no network")

/-- A preparation collaborator that returns a fresh empty statement. -/
def clientB : Client := fun _ f => .ok ⟨[], f⟩

/-! Helper lemmas. -/

theorem parseFieldsFrom_length :
    ∀ (n off : Nat) (buf : Bytes) (rs : List (Option (Nat × Nat))),
      parseFieldsFrom n off buf = .ok rs → rs.length = n := by
  intro n
  induction n with
  | zero =>
    intro off buf rs h
    simp only [parseFieldsFrom] at h
    split at h
    · injection h with h; simp [← h]
    · cases h
  | succ n ih =>
    intro off buf rs h
    match buf with
    | [] => simp [parseFieldsFrom] at h
    | [_] => simp [parseFieldsFrom] at h
    | [_, _] => simp [parseFieldsFrom] at h
    | [_, _, _] => simp [parseFieldsFrom] at h
    | b0 :: b1 :: b2 :: b3 :: rest =>
      simp only [parseFieldsFrom] at h
      split at h
      · cases heq : parseFieldsFrom n (off + 4) rest with
        | error e => rw [heq] at h; cases h
        | ok rs2 =>
          rw [heq] at h; injection h with h
          rw [← h]; simp [ih _ _ _ heq]
      · split at h
        · cases h
        · cases heq : parseFieldsFrom n (off + 4 + beU32 b0 b1 b2 b3)
              (rest.drop (beU32 b0 b1 b2 b3)) with
          | error e => rw [heq] at h; cases h
          | ok rs2 =>
            rw [heq] at h; injection h with h
            rw [← h]; simp [ih _ _ _ heq]

theorem position_eq_first {α : Type} (p : α → Bool) :
    ∀ (l : List α) (i : Nat) (x : α), l.get? i = some x → p x = true →
      (∀ j y, j < i → l.get? j = some y → p y = false) →
      position p l = some i := by
  intro l
  induction l with
  | nil => intro i x hx; simp [List.get?] at hx
  | cons a t ih =>
    intro i x hx hp hfirst
    cases i with
    | zero =>
      have : a = x := by injection hx
      rw [this] at *
      simp [position, hp]
    | succ i =>
      have ha : p a = false := hfirst 0 a (Nat.succ_pos i) rfl
      have ht : position p t = some i :=
        ih i x hx hp (fun j y hj hy => hfirst (j + 1) y (Nat.succ_lt_succ hj) hy)
      simp [position, ha, ht]

/-! Claim theorems. -/

/-- Claim C1: for every successfully constructed Row and SimpleQueryRow whose
DataRow body carries one field per column of the attached metadata (the
protocol-layer guarantee on the field count), the parsed optional byte ranges
are exactly as many as the columns; rows are immutable values, so the equality
holds for the row's whole lifetime. -/
theorem c1_ranges_length_eq_columns (stmt : Statement) (body : DataRowBody) (ea : Bool)
    (scols : List SimpleColumn) :
    (∀ row : Row, Row.new stmt body ea = .ok row →
      body.fieldCount = stmt.columns.length →
      row.ranges.length = row.columns.length)
    ∧ (∀ srow : SimpleQueryRow, SimpleQueryRow.new scols body = .ok srow →
      body.fieldCount = scols.length →
      srow.ranges.length = srow.columns.length) := by
  constructor
  · intro row hnew hfc
    unfold Row.new at hnew
    cases heq : DataRowBody.ranges body with
    | error e => rw [heq] at hnew; cases hnew
    | ok rs =>
      rw [heq] at hnew
      injection hnew with hnew
      have hlen : rs.length = body.fieldCount :=
        parseFieldsFrom_length body.fieldCount 0 body.buffer rs heq
      rw [← hnew]
      simpa [Row.columns, hfc] using hlen
  · intro srow hnew hfc
    unfold SimpleQueryRow.new at hnew
    cases heq : DataRowBody.ranges body with
    | error e => rw [heq] at hnew; cases hnew
    | ok rs =>
      rw [heq] at hnew
      injection hnew with hnew
      have hlen : rs.length = body.fieldCount :=
        parseFieldsFrom_length body.fieldCount 0 body.buffer rs heq
      rw [← hnew]
      simpa [hfc] using hlen

theorem c1_witness :
    Row.new wStmt wBody true = .ok wRow
    ∧ wBody.fieldCount = wStmt.columns.length
    ∧ wRow.ranges.length = wRow.columns.length :=
  ⟨by decide, by decide,
    (c1_ranges_length_eq_columns wStmt wBody true []).1 wRow (by decide) (by decide)⟩

/-- Claim C2: on a Row whose tuple is not binary-encoded, get_inner fails with
the distinguished format-gate error for every index, before any column
resolution: even an index that would not resolve yields the format error, not
the Column error carrying that index. -/
theorem c2_format_gate_first (T : Type) (row : Row) (cap : FromSqlCap T) (idx : RowIndex)
    (h : row.extract_allowed = false) :
    row.try_get cap idx = .error formatError
    ∧ (RowIndex.display idx ≠ formatMsg →
        row.try_get cap idx ≠ .error (.column (RowIndex.display idx))) := by
  have h1 : row.try_get cap idx = .error formatError := by
    unfold Row.try_get Row.get_inner
    simp [h]
  refine ⟨h1, fun hne => ?_⟩
  rw [h1]
  intro hcontra
  injection hcontra with hc
  unfold formatError at hc
  injection hc with hs
  exact hne hs.symm

theorem c2_witness :
    wRowNB.extract_allowed = false
    ∧ wRowNB.try_get rawCap (.pos 5) = .error formatError
    ∧ RowIndex.display (.pos 5) ≠ formatMsg
    ∧ wRowNB.try_get rawCap (.pos 5) ≠ .error (.column (RowIndex.display (.pos 5))) :=
  ⟨rfl,
    (c2_format_gate_first (Option Bytes) wRowNB rawCap (.pos 5) rfl).1,
    by decide,
    (c2_format_gate_first (Option Bytes) wRowNB rawCap (.pos 5) rfl).2 (by decide)⟩

/-- Claim C3: resolving a statement-kind reference whose negotiated format
differs from the requested one fails with the encoding-mismatch error naming
both formats; the result never depends on the preparation collaborator; and
resolving with the matching format returns the very same statement. -/
theorem c3_statement_reuse (s : Statement) (f2 : ProtocolEncodingFormat)
    (client client' : Client) :
    (f2 ≠ s.result_format →
      ToStatementType.into_statement (.Statement f2 s) client
        = .error (.column (encodingMismatchMsg f2 s.result_format)))
    ∧ ToStatementType.into_statement (.Statement f2 s) client
        = ToStatementType.into_statement (.Statement f2 s) client'
    ∧ ToStatementType.into_statement (.Statement s.result_format s) client = .ok s := by
  refine ⟨fun hne => ?_, rfl, ?_⟩
  · simp [ToStatementType.into_statement, hne]
  · simp [ToStatementType.into_statement]

theorem c3_witness :
    ProtocolEncodingFormat.Text ≠ wStmt.result_format
    ∧ ToStatementType.into_statement (.Statement .Text wStmt) clientA
        = .error (.column (encodingMismatchMsg .Text wStmt.result_format))
    ∧ ToStatementType.into_statement (.Statement .Text wStmt) clientA
        = ToStatementType.into_statement (.Statement .Text wStmt) clientB
    ∧ ToStatementType.into_statement (.Statement wStmt.result_format wStmt) clientA
        = .ok wStmt :=
  ⟨by decide,
    (c3_statement_reuse wStmt .Text clientA clientB).1 (by decide),
    (c3_statement_reuse wStmt .Text clientA clientB).2.1,
    (c3_statement_reuse wStmt .Text clientA clientB).2.2⟩

/-- Claim C4: name resolution runs the exact byte-for-byte pass over the
column names first and falls back to the ASCII case-insensitive pass only when
the exact pass finds nothing; hence the first exactly matching column wins
even when an earlier column matches case-insensitively. -/
theorem c4_exact_pass_first (nm : String) (names : List String) :
    (position (fun d => d == nm) names = none →
      strIdx nm names = position (fun d => eqIgnoreAsciiCase d nm) names)
    ∧ (∀ i, names.get? i = some nm →
        (∀ j, j < i → names.get? j ≠ some nm) →
        strIdx nm names = some i) := by
  constructor
  · intro h
    simp [strIdx, h]
  · intro i hi hfirst
    have hpos : position (fun d => d == nm) names = some i := by
      apply position_eq_first _ names i nm hi (by simp)
      intro j y hj hy
      have hne : y ≠ nm := fun he => hfirst j hj (he ▸ hy)
      simp [hne]
    simp [strIdx, hpos]

theorem c4_witness :
    (["AB", "ab"].get? 1 = some "ab")
    ∧ eqIgnoreAsciiCase "AB" "ab" = true
    ∧ strIdx "ab" ["AB", "ab"] = some 1 :=
  ⟨by decide, by decide,
    (c4_exact_pass_first "ab" ["AB", "ab"]).2 1 (by decide)
      (fun j hj => by
        have hj0 : j = 0 := by omega
        rw [hj0]
        decide)⟩

/-- Claim C5 as stated is false: on a constructed Row whose two columns share
the exact name "a" but hold the values 7 and 8, get at position 1 and get at
the column's exact name "a" differ, because name resolution returns the first
matching column. -/
theorem c5_counterexample :
    Row.new dupStmt dupBody true = .ok dupRow
    ∧ dupRow.columns.get? 1 = some ⟨"a", "int4"⟩
    ∧ dupRow.try_get rawCap (.pos 1) ≠ dupRow.try_get rawCap (.name "a") :=
  ⟨by decide, by decide, by decide⟩

/-- Claim C5 (amended): for every Row and every column such that no earlier
column carries the same exact name, extraction by the column's zero-based
position and extraction by its exact name yield identical results. -/
theorem c5_pos_name_agree (T : Type) (row : Row) (cap : FromSqlCap T) (i : Nat)
    (col : Column)
    (h1 : row.columns.get? i = some col)
    (h2 : ∀ j c, j < i → row.columns.get? j = some c → c.name ≠ col.name) :
    row.try_get cap (.pos i) = row.try_get cap (.name col.name) := by
  have hmap : (row.columns.map Column.name).get? i = some col.name := by
    rw [List.get?_map, h1]; rfl
  have hlen : i < (row.columns.map Column.name).length := by
    rw [List.get?_eq_some] at hmap
    exact hmap.1
  have hmap2 : (row.columns.map Column.name).get? i = some col.name := by
    rw [List.get?_map, h1]; rfl
  have hpos : RowIndex.idx (.pos i) (row.columns.map Column.name) = some i := by
    have hlen2 : i < row.columns.length := by simpa using hlen
    have hnle : ¬ (row.columns.length ≤ i) := Nat.not_le.mpr hlen2
    simp [RowIndex.idx, usizeIdx, hnle]
  have hname : RowIndex.idx (.name col.name) (row.columns.map Column.name) = some i := by
    have hfirst : position (fun d => d == col.name) (row.columns.map Column.name) = some i := by
      apply position_eq_first _ _ i col.name hmap2 (by simp)
      intro j y hj hy
      rw [List.get?_map] at hy
      cases hc : row.columns.get? j with
      | none => rw [hc] at hy; cases hy
      | some c =>
        rw [hc] at hy
        injection hy with hy
        have hne : c.name ≠ col.name := h2 j c hj hc
        rw [hy] at hne
        simp [hne]
    simp [RowIndex.idx, strIdx, hfirst]
  simp only [Row.try_get, Row.get_inner, hpos, hname]

theorem c5_witness :
    wRow.columns.get? 0 = some ⟨"id", "int4"⟩
    ∧ wRow.try_get rawCap (.pos 0) = wRow.try_get rawCap (.name "id") :=
  ⟨by decide,
    c5_pos_name_agree (Option Bytes) wRow rawCap 0 ⟨"id", "int4"⟩ (by decide)
      (fun j c hj _ => absurd hj (Nat.not_lt_zero j))⟩

/-- Claim C6: on a binary Row, when the index resolves to a column whose
declared type the decode capability rejects, try_get fails with the WrongType
error carrying the requested Rust type and the declared type, for every decode
function whatsoever — the decoder is never consulted. -/
theorem c6_type_mismatch (T : Type) (row : Row) (tn : String) (acc : PgType → Bool)
    (dec : PgType → Option Bytes → Except String T) (idx : RowIndex) (i : Nat)
    (hb : row.extract_allowed = true)
    (hr : RowIndex.idx idx (row.columns.map Column.name) = some i)
    (ha : acc (colAt row.columns i).type_ = false) :
    row.try_get ⟨tn, acc, dec⟩ idx
      = .error (.fromSql (.wrongType tn (colAt row.columns i).type_) i) := by
  unfold Row.try_get Row.get_inner
  simp [hb, hr, ha]

theorem c6_witness :
    wRow.extract_allowed = true
    ∧ RowIndex.idx (.pos 0) (wRow.columns.map Column.name) = some 0
    ∧ wRow.try_get ⟨"i64", fun _ => false, fun _ ob => .ok ob⟩ (.pos 0)
        = .error (.fromSql (.wrongType "i64" (colAt wRow.columns 0).type_) 0) :=
  ⟨rfl, by decide,
    c6_type_mismatch (Option Bytes) wRow "i64" (fun _ => false) (fun _ ob => .ok ob)
      (.pos 0) 0 rfl (by decide) rfl⟩

/-- Claim C7: on a binary Row with n columns, try_get at any position p with
n less than or equal to p returns the Column error carrying the decimal
rendering of p (and no fatal fault), and a position resolves to a column
exactly when it is below n. -/
theorem c7_out_of_range (T : Type) (row : Row) (cap : FromSqlCap T)
    (hb : row.extract_allowed = true) :
    (∀ p, row.len ≤ p → row.try_get cap (.pos p) = .error (.column (Nat.repr p)))
    ∧ (∀ p, usizeIdx p (row.columns.map Column.name) = some p ↔ p < row.len) := by
  constructor
  · intro p hp
    have hle : row.columns.length ≤ p := hp
    have hidx : RowIndex.idx (.pos p) (row.columns.map Column.name) = none := by
      simp [RowIndex.idx, usizeIdx, hle]
    unfold Row.try_get Row.get_inner
    simp [hb, hidx, RowIndex.display]
  · intro p
    constructor
    · intro h
      unfold usizeIdx at h
      split at h
      · cases h
      · next hlt =>
        have hlt2 := Nat.lt_of_not_le hlt
        simpa using hlt2
    · intro h
      have h2 : p < row.columns.length := h
      have hlt : ¬ ((row.columns.map Column.name).length ≤ p) := by
        simp only [List.length_map]
        omega
      simp only [usizeIdx, List.length_map]
      rw [if_neg (Nat.not_le.mpr h2)]

theorem c7_witness :
    wRow.extract_allowed = true
    ∧ wRow.len ≤ 5
    ∧ wRow.try_get rawCap (.pos 5) = .error (.column (Nat.repr 5))
    ∧ (usizeIdx 1 (wRow.columns.map Column.name) = some 1 ↔ 1 < wRow.len) :=
  ⟨rfl, by decide,
    (c7_out_of_range (Option Bytes) wRow rawCap rfl).1 5 (by decide),
    (c7_out_of_range (Option Bytes) wRow rawCap rfl).2 1⟩

/-- Claim C8: on a SimpleQueryRow, for every index that resolves to a column,
try_get is exactly the textual decode of that column's slice at declared type
TEXT — no binary-format gate and no accepts check are performed — and the
result is never the format-gate error. -/
theorem c8_simple_text_path (row : SimpleQueryRow) (cap : TextCap) (idx : RowIndex) (i : Nat)
    (hr : RowIndex.idx idx (row.columns.map SimpleColumn.name) = some i) :
    row.try_get cap idx
      = (match cap typeTEXT (row.col_buffer i) with
          | .ok v => .ok v
          | .error e => .error (.fromSql (.other e) i))
    ∧ row.try_get cap idx ≠ .error formatError := by
  have h1 : row.try_get cap idx
      = (match cap typeTEXT (row.col_buffer i) with
          | .ok v => .ok v
          | .error e => .error (.fromSql (.other e) i)) := by
    unfold SimpleQueryRow.try_get SimpleQueryRow.get_inner
    rw [hr]
    cases hc : cap typeTEXT (row.col_buffer i) with
    | ok v => simp [hc]
    | error e => simp [hc]
  refine ⟨h1, ?_⟩
  rw [h1]
  cases cap typeTEXT (row.col_buffer i) with
  | ok v => simp
  | error e => simp [formatError]

theorem c8_witness :
    RowIndex.idx (.name "id") (wSimple.columns.map SimpleColumn.name) = some 0
    ∧ wSimple.try_get wTextCap (.name "id") = .ok (some "decoded")
    ∧ wSimple.try_get wTextCap (.name "id") ≠ .error formatError :=
  ⟨by decide, by decide,
    (c8_simple_text_path wSimple wTextCap (.name "id") 0 (by decide)).2⟩

/-- Claim C9: when two columns carry byte-for-byte identical names, name
lookup resolves to the earliest one, never the later one; the later column
remains reachable by position. -/
theorem c9_first_duplicate_wins (names : List String) (nm : String) (i j : Nat)
    (hij : i < j) (hi : names.get? i = some nm) (hj : names.get? j = some nm)
    (hfirst : ∀ k, k < i → names.get? k ≠ some nm) :
    strIdx nm names = some i
    ∧ strIdx nm names ≠ some j
    ∧ usizeIdx j names = some j := by
  have hpos : position (fun d => d == nm) names = some i := by
    apply position_eq_first _ names i nm hi (by simp)
    intro k y hk hy
    have hne : y ≠ nm := fun he => hfirst k hk (he ▸ hy)
    simp [hne]
  have h1 : strIdx nm names = some i := by simp [strIdx, hpos]
  refine ⟨h1, ?_, ?_⟩
  · rw [h1]
    intro hc
    injection hc with hc
    omega
  · have hjlen : j < names.length := by
      rw [List.get?_eq_some] at hj
      exact hj.1
    simp [usizeIdx, Nat.not_le.mpr hjlen]

theorem c9_witness :
    (["a", "a"].get? 0 = some "a")
    ∧ (["a", "a"].get? 1 = some "a")
    ∧ strIdx "a" ["a", "a"] = some 0
    ∧ strIdx "a" ["a", "a"] ≠ some 1
    ∧ usizeIdx 1 ["a", "a"] = some 1 :=
  ⟨by decide, by decide,
    (c9_first_duplicate_wins ["a", "a"] "a" 0 1 (by decide) (by decide) (by decide)
      (fun k hk => absurd hk (Nat.not_lt_zero k))).1,
    (c9_first_duplicate_wins ["a", "a"] "a" 0 1 (by decide) (by decide) (by decide)
      (fun k hk => absurd hk (Nat.not_lt_zero k))).2.1,
    (c9_first_duplicate_wins ["a", "a"] "a" 0 1 (by decide) (by decide) (by decide)
      (fun k hk => absurd hk (Nat.not_lt_zero k))).2.2⟩

/-- Claim C10: for Row and SimpleQueryRow alike, the panicking get and the
result-returning try_get evaluate the same underlying get_inner: get succeeds
with v exactly when try_get does, and get faults (modelled as the panic-message
error) exactly when try_get returns an error. -/
theorem c10_get_refines_try_get (T : Type) (row : Row) (cap : FromSqlCap T)
    (idx : RowIndex) (srow : SimpleQueryRow) (scap : TextCap) (sidx : RowIndex) :
    ((∀ v, row.get cap idx = .ok v ↔ row.try_get cap idx = .ok v)
      ∧ ((∃ m, row.get cap idx = .error m) ↔ (∃ e, row.try_get cap idx = .error e)))
    ∧ ((∀ v, srow.get scap sidx = .ok v ↔ srow.try_get scap sidx = .ok v)
      ∧ ((∃ m, srow.get scap sidx = .error m)
          ↔ (∃ e, srow.try_get scap sidx = .error e))) := by
  constructor
  · unfold Row.get Row.try_get
    cases h : row.get_inner cap idx with
    | ok v => simp
    | error e => simp
  · unfold SimpleQueryRow.get SimpleQueryRow.try_get
    cases h : srow.get_inner scap sidx with
    | ok v => simp
    | error e => simp

end Pg
